import Mathlib

/-!
Shallow embedding of the Book-Buddy-API request lifecycle
(src/controllers/requestController.js, src/controllers/bookController.js,
src/models/Request.js, src/models/Book.js, src/models/User.js,
src/middleware/validation.js, src/routes/requestRoutes.js).

Mongo documents are modelled as Lean structures holding the schema fields
the lifecycle reads or writes, kept in lists inside a `DB` state; `findById`
is first-match lookup and `findByIdAndUpdate` / `save` is an in-place update
of the first matching document.  Each controller is a pure function from the
`DB` and the request parameters to an HTTP-style outcome paired with the
post-state.
-/

namespace BookBuddy

/-- Availability status of a book (`status` enum of models/Book.js). -/
inductive BookStatus where
  | available
  | notAvailable
deriving DecidableEq, Repr

/-- A book document (models/Book.js): owner reference, availability status,
soft-delete flag, plus a representative payload field (title). -/
structure Book where
  id : Nat
  owner : Nat
  status : BookStatus
  isActive : Bool
  title : String
deriving DecidableEq, Repr

/-- Lifecycle status of a request, covering every string the system
persists in the status path of models/Request.js.  The schema enum there
lists only pending, accepted and completed (default pending, applied by
Request.create), but updateRequest writes the status through
findByIdAndUpdate without runValidators, and mongoose update queries skip
validators by default, so rejected and cancelled are stored as well — the
transition table of requestController.js names all five. -/
inductive ReqStatus where
  | pending
  | accepted
  | rejected
  | completed
  | cancelled
deriving DecidableEq, Repr

/-- The string stored for a status, used in the invalid-transition message. -/
def ReqStatus.toStr : ReqStatus → String
  | .pending => "pending"
  | .accepted => "accepted"
  | .rejected => "rejected"
  | .completed => "completed"
  | .cancelled => "cancelled"

/-- Parse the raw body status string into the stored enum. -/
def strToStatus (s : String) : Option ReqStatus :=
  if s == "pending" then some ReqStatus.pending
  else if s == "accepted" then some ReqStatus.accepted
  else if s == "rejected" then some ReqStatus.rejected
  else if s == "completed" then some ReqStatus.completed
  else if s == "cancelled" then some ReqStatus.cancelled
  else none

/-- Kind of a request (`type` field): free transfer or exchange. -/
inductive ReqType where
  | free
  | exchange
deriving DecidableEq, Repr

/-- Bilateral rating block of a request: the rating subdocument of
models/Request.js (requesterRating / ownerRating, number 1..5, and the two
review strings), each field absent until the corresponding side rates. -/
structure ReqRating where
  requesterRating : Option Rat
  requesterReview : Option String
  ownerRating : Option Rat
  ownerReview : Option String
deriving DecidableEq, Repr

/-- The all-unset rating block (schema default). -/
def ReqRating.empty : ReqRating := ⟨none, none, none, none⟩

/-- A request document per models/Request.js: requester, target book,
denormalized owner, type (free or exchange), optional offered book,
status, optional completion timestamp, and the rating subdocument.  The
schema declares no meetingDetails path (and runs in strict mode), so no
such field exists on stored documents. -/
structure Request where
  id : Nat
  requester : Nat
  book : Nat
  owner : Nat
  type : ReqType
  offeredBooks : Option Nat
  status : ReqStatus
  completedAt : Option Nat
  rating : ReqRating
deriving DecidableEq, Repr

/-- A user document restricted to the rating aggregate used by
userSchema.methods.updateRating (models/User.js). -/
structure User where
  id : Nat
  ratingAverage : Rat
  ratingCount : Nat
deriving DecidableEq, Repr

/-- The running-average fold of models/User.js updateRating:
totalRating = average * count + newRating; count += 1;
average = totalRating / count. -/
def User.updateRating (u : User) (newRating : Rat) : User :=
  let totalRating : Rat := u.ratingAverage * (u.ratingCount : Rat) + newRating
  { u with
      ratingCount := u.ratingCount + 1,
      ratingAverage := totalRating / ((u.ratingCount : Rat) + 1) }

/-- The document store: all books, requests and users. -/
structure DB where
  books : List Book
  requests : List Request
  users : List User
deriving DecidableEq, Repr

/-- First-match lookup by a key function, modelling findById / findOne. -/
def findByIdL (idf : α → Nat) (l : List α) (i : Nat) : Option α :=
  l.find? (fun x => idf x == i)

/-- Update of the first document matching the key, modelling
findByIdAndUpdate and document save(); later elements are untouched. -/
def updateByIdL (idf : α → Nat) (f : α → α) (i : Nat) : List α → List α
  | [] => []
  | x :: xs => if idf x == i then f x :: xs else x :: updateByIdL idf f i xs

def Book.findById (db : DB) (i : Nat) : Option Book :=
  findByIdL Book.id db.books i

def Request.findById (db : DB) (i : Nat) : Option Request :=
  findByIdL Request.id db.requests i

def User.findById (db : DB) (i : Nat) : Option User :=
  findByIdL User.id db.users i

def DB.updateBookById (db : DB) (i : Nat) (f : Book → Book) : DB :=
  { db with books := updateByIdL Book.id f i db.books }

def DB.updateRequestById (db : DB) (i : Nat) (f : Request → Request) : DB :=
  { db with requests := updateByIdL Request.id f i db.requests }

def DB.updateUserById (db : DB) (i : Nat) (f : User → User) : DB :=
  { db with users := updateByIdL User.id f i db.users }

/-- An HTTP-style controller outcome: success with a payload, or the
structured error body with its status code. -/
inductive Outcome (α : Type) where
  | success (code : Nat) (data : α)
  | error (code : Nat) (message : String)
deriving DecidableEq, Repr

/-- JavaScript truthiness of an optional number (undefined and 0 are
falsy). -/
def truthyNum : Option Rat → Bool
  | none => false
  | some v => !(v == 0)

/-- The validTransitions table of updateRequest
(requestController.js lines 253-259): the raw target strings allowed from
each stored status. -/
def validTransitions : ReqStatus → List String
  | .pending => ["accepted", "rejected", "cancelled"]
  | .accepted => ["completed", "cancelled"]
  | .rejected => []
  | .completed => []
  | .cancelled => []

/-- The invalid-transition error body text of requestController.js line
264. -/
def invalidTransitionMsg (cur : ReqStatus) (target : String) : String :=
  "Cannot change status from " ++ cur.toStr ++ " to " ++ target

/-- POST /api/requests controller (createRequest, requestController.js lines
9-107).  `fid` is the fresh document id the store assigns on create; the
created request receives status pending, the schema default declared in
models/Request.js. -/
def createRequest (db : DB) (userId : Nat) (bookId : Nat) (type : ReqType)
    (offeredBooks : Option Nat) (fid : Nat) : Outcome Request × DB :=
  match Book.findById db bookId with
  | none => (.error 404 "Book not found", db)
  | some book =>
    if !book.isActive then
      (.error 404 "Book not found", db)
    else if !(book.status == BookStatus.available) then
      (.error 400 "Book is not available for requests", db)
    else if book.owner == userId then
      (.error 400 "You cannot request your own book", db)
    else if db.requests.any (fun r =>
        r.requester == userId && r.book == bookId &&
        r.status == ReqStatus.pending) then
      (.error 400 "You already have a pending request for this book", db)
    else
      match type with
      | .exchange =>
        match offeredBooks with
        | none => (.error 400 "Exchange requests must include an offered book", db)
        | some ob =>
          match db.books.find? (fun b =>
              b.id == ob && b.owner == userId && b.isActive &&
              b.status == BookStatus.available) with
          | none => (.error 400 "Offered book is not valid or not available", db)
          | some _ =>
            let request : Request :=
              { id := fid, requester := userId, book := bookId,
                owner := book.owner, type := ReqType.exchange,
                offeredBooks := some ob, status := ReqStatus.pending,
                completedAt := none, rating := ReqRating.empty }
            (.success 201 request,
             { db with requests := db.requests ++ [request] })
      | .free =>
        let request : Request :=
          { id := fid, requester := userId, book := bookId,
            owner := book.owner, type := ReqType.free,
            offeredBooks := none, status := ReqStatus.pending,
            completedAt := none, rating := ReqRating.empty }
        (.success 201 request,
         { db with requests := db.requests ++ [request] })

/-- The request-document update persisted on a successful transition
(updateRequest lines 269-280): the new status, plus the completion
timestamp when the target is completed.  The controller also puts a
meetingDetails value into updateData when the body carries one, but the
requestSchema declares no such path and runs in strict mode, so
findByIdAndUpdate silently discards it and the stored document gains only
status and completedAt. -/
def applyStatusUpdate (ns : ReqStatus) (status : String) (now : Nat)
    (r : Request) : Request :=
  { r with
      status := ns,
      completedAt :=
        if status == "completed" then some now else r.completedAt }

/-- The book mutations of a successful transition (updateRequest lines
288-315), driven by the raw target string and the pre-update request
document. -/
def bookEffects (db : DB) (request : Request) (status : String) : DB :=
  if status == "accepted" then
    db.updateBookById request.book
      (fun b => { b with status := BookStatus.notAvailable })
  else if status == "completed" then
    match request.type with
    | .free =>
      db.updateBookById request.book
        (fun b => { b with status := BookStatus.notAvailable,
                           owner := request.requester })
    | .exchange =>
      let db1 := db.updateBookById request.book
        (fun b => { b with status := BookStatus.notAvailable,
                           owner := request.requester })
      match request.offeredBooks with
      | some ob =>
        db1.updateBookById ob
          (fun b => { b with status := BookStatus.notAvailable,
                             owner := request.owner })
      | none => db1
  else
    db

/-- PUT /api/requests/:id controller (updateRequest, requestController.js
lines 212-330).  `status` is the raw body string; `now` models new Date();
`meetingDetails` is the body field the controller copies into updateData,
kept as a parameter although the schema (no meetingDetails path, strict
mode) discards it, so it never reaches the store. -/
def updateRequest (db : DB) (reqId : Nat) (userId : Nat) (status : String)
    (meetingDetails : Option String) (now : Nat) : Outcome Request × DB :=
  match Request.findById db reqId with
  | none => (.error 404 "Request not found", db)
  | some request =>
    if (status == "accepted" || status == "rejected") &&
        !(request.owner == userId) then
      (.error 403 "Only book owner can accept or reject requests", db)
    else if status == "cancelled" && !(request.requester == userId) then
      (.error 403 "Only requester can cancel the request", db)
    else if status == "completed" && !(request.requester == userId) &&
        !(request.owner == userId) then
      (.error 403 "Not authorized to update this request", db)
    else if !((validTransitions request.status).contains status) then
      (.error 400 (invalidTransitionMsg request.status status), db)
    else
      match strToStatus status with
      | none => (.error 400 (invalidTransitionMsg request.status status), db)
      | some ns =>
        let updatedRequest := applyStatusUpdate ns status now request
        let db1 := db.updateRequestById reqId
          (applyStatusUpdate ns status now)
        let db2 := bookEffects db1 request status
        (.success 200 updatedRequest, db2)

/-- GET /api/requests/:id controller (getRequestById, requestController.js
lines 171-207): only the requester or the owner may view; no state is
mutated, so the post-state is returned unchanged. -/
def getRequestById (db : DB) (reqId : Nat) (userId : Nat) :
    Outcome Request × DB :=
  match Request.findById db reqId with
  | none => (.error 404 "Request not found", db)
  | some request =>
    if !(request.requester == userId) && !(request.owner == userId) then
      (.error 403 "Not authorized to view this request", db)
    else
      (.success 200 request, db)

/-- POST /api/requests/:id/rate controller (rateRequest, requestController.js
lines 335-411).  The already-rated guards are JavaScript truthiness tests on
the stored rating values; the counterparty is looked up with User.findById
and folded with updateRating, then the request document is saved. -/
def rateRequest (db : DB) (reqId : Nat) (userId : Nat) (rating : Rat)
    (review : Option String) : Outcome ReqRating × DB :=
  match Request.findById db reqId with
  | none => (.error 404 "Request not found", db)
  | some request =>
    if !(request.status == ReqStatus.completed) then
      (.error 400 "Can only rate completed requests", db)
    else
      let isRequester := request.requester == userId
      let isOwner := request.owner == userId
      if !isRequester && !isOwner then
        (.error 403 "Not authorized to rate this request", db)
      else if isRequester then
        if truthyNum request.rating.requesterRating then
          (.error 400 "You have already rated this request", db)
        else
          match User.findById db request.owner with
          | none => (.error 500 "owner is null", db)
          | some _ =>
            let newRating :=
              { request.rating with
                  requesterRating := some rating,
                  requesterReview := review }
            let db1 := db.updateUserById request.owner
              (fun u => u.updateRating rating)
            let db2 := db1.updateRequestById reqId
              (fun r => { r with rating := newRating })
            (.success 200 newRating, db2)
      else
        if truthyNum request.rating.ownerRating then
          (.error 400 "You have already rated this request", db)
        else
          match User.findById db request.requester with
          | none => (.error 500 "requester is null", db)
          | some _ =>
            let newRating :=
              { request.rating with
                  ownerRating := some rating,
                  ownerReview := review }
            let db1 := db.updateUserById request.requester
              (fun u => u.updateRating rating)
            let db2 := db1.updateRequestById reqId
              (fun r => { r with rating := newRating })
            (.success 200 newRating, db2)

/-- DELETE /api/books/:id controller (deleteBook, bookController.js lines
191-238): forbidden unless the caller owns the book, invalid-state while a
pending request references it, otherwise a soft delete that keeps the record
and sets isActive false and status Not Available. -/
def deleteBook (db : DB) (bookId : Nat) (userId : Nat) : Outcome Unit × DB :=
  match Book.findById db bookId with
  | none => (.error 404 "Book not found", db)
  | some book =>
    if !(book.owner == userId) then
      (.error 403 "Not authorized to delete this book", db)
    else if 0 < (db.requests.filter (fun r =>
        r.book == bookId && r.status == ReqStatus.pending)).length then
      (.error 400 "Cannot delete book with pending requests", db)
    else
      (.success 200 (),
       db.updateBookById bookId
         (fun b => { b with isActive := false,
                            status := BookStatus.notAvailable }))

/-- The Joi body check applied by PUT /api/requests/:id before the
controller runs (validation.js updateRequestSchema composed with the
validate middleware at requestRoutes.js line 245): the status value must be
the string accepted or completed, otherwise the middleware replies 400 and
the controller is never reached. -/
def putRequestRoute (db : DB) (reqId : Nat) (userId : Nat) (status : String)
    (now : Nat) : Outcome Request × DB :=
  if status == "accepted" || status == "completed" then
    updateRequest db reqId userId status none now
  else
    (.error 400 "status must be one of [accepted, completed]", db)

/-- The authorization gate of updateRequest (lines 225-250) as a predicate:
true when none of the three 403 branches fires for this caller and target
status. -/
def authPasses (request : Request) (userId : Nat) (status : String) : Bool :=
  !((status == "accepted" || status == "rejected") &&
      !(request.owner == userId)) &&
  !(status == "cancelled" && !(request.requester == userId)) &&
  !(status == "completed" && !(request.requester == userId) &&
      !(request.owner == userId))

/-- The five edges of the specified transition table, written out as the spec
lists them. -/
def isTableEdgeB (cur : ReqStatus) (target : String) : Bool :=
  (cur == ReqStatus.pending &&
    (target == "accepted" || target == "rejected" || target == "cancelled")) ||
  (cur == ReqStatus.accepted &&
    (target == "completed" || target == "cancelled"))

/-- Target book absent or soft-deleted (the 404 condition of
createRequest). -/
def targetMissingB (db : DB) (bookId : Nat) : Bool :=
  match Book.findById db bookId with
  | none => true
  | some b => !b.isActive

/-- Target book present and active but not Available. -/
def targetUnavailableB (db : DB) (bookId : Nat) : Bool :=
  match Book.findById db bookId with
  | none => false
  | some b => !(b.status == BookStatus.available)

/-- The requester owns the target book. -/
def ownsTargetB (db : DB) (bookId : Nat) (userId : Nat) : Bool :=
  match Book.findById db bookId with
  | none => false
  | some b => b.owner == userId

/-- The requester already has a pending request for this book. -/
def dupPendingB (db : DB) (bookId : Nat) (userId : Nat) : Bool :=
  db.requests.any (fun r =>
    r.requester == userId && r.book == bookId &&
    r.status == ReqStatus.pending)

/-- Exchange kind with no offered book supplied. -/
def exchangeNoOfferB (ty : ReqType) (ob : Option Nat) : Bool :=
  ty == ReqType.exchange && ob.isNone

/-- Exchange kind whose supplied offered book fails the ownership or
availability lookup (absent, inactive, not owned by the requester, or not
Available). -/
def exchangeBadOfferB (db : DB) (userId : Nat) (ty : ReqType)
    (ob : Option Nat) : Bool :=
  match ty, ob with
  | ReqType.exchange, some o =>
    (db.books.find? (fun b =>
      b.id == o && b.owner == userId && b.isActive &&
      b.status == BookStatus.available)).isNone
  | _, _ => false

/-! Concrete fixtures used by the witness theorems. -/

/-- A listed, available book owned by user 20. -/
def wBook : Book :=
  { id := 1, owner := 20, status := BookStatus.available, isActive := true,
    title := "The Hobbit" }

/-- A pending free request by user 10 for book 1 owned by user 20. -/
def wReqPending : Request :=
  { id := 1, requester := 10, book := 1, owner := 20, type := ReqType.free,
    offeredBooks := none, status := ReqStatus.pending, completedAt := none,
    rating := ReqRating.empty }

def wReqAccepted : Request := { wReqPending with status := ReqStatus.accepted }

def wReqCancelled : Request :=
  { wReqPending with status := ReqStatus.cancelled }

def wReqCompleted : Request :=
  { wReqPending with status := ReqStatus.completed }

/-- Store holding one available book and one pending request for it. -/
def wdbPending : DB := { books := [wBook], requests := [wReqPending], users := [] }

/-- Store holding one available book and no requests. -/
def wdbBooks : DB := { books := [wBook], requests := [], users := [] }

/-- Store in which the request for book 1 has been accepted. -/
def wdbAccepted : DB :=
  { books := [wBook], requests := [wReqAccepted], users := [] }

/-- The pending store after the controller (bypassing route validation)
cancels request 1. -/
def wdbCancelled : DB :=
  { books := [wBook], requests := [wReqCancelled], users := [] }

/-- An unrated owner and requester, for the rating fixtures. -/
def wOwnerUser : User := { id := 20, ratingAverage := 0, ratingCount := 0 }

def wRequesterUser : User := { id := 10, ratingAverage := 0, ratingCount := 0 }

/-- Store in which the request has completed and both parties exist,
neither side rated yet. -/
def wdbCompleted : DB :=
  { books := [wBook], requests := [wReqCompleted],
    users := [wOwnerUser, wRequesterUser] }

/-- Store in which the requester has already rated the completed request. -/
def wdbRated : DB :=
  { books := [wBook],
    requests := [{ wReqCompleted with
      rating := { ReqRating.empty with requesterRating := some 4 } }],
    users := [wOwnerUser, wRequesterUser] }

/-! Store lemmas: how first-match lookup interacts with first-match
update. -/

theorem findByIdL_updateByIdL_of_ne {α : Type} (idf : α → Nat) (f : α → α)
    (hf : ∀ x, idf (f x) = idf x) (l : List α) (i j : Nat) (hne : j ≠ i) :
    findByIdL idf (updateByIdL idf f i l) j = findByIdL idf l j := by
  induction l with
  | nil => rfl
  | cons x xs ih =>
    by_cases hx : idf x == i
    · have hxi : idf x = i := by simpa using hx
      simp only [updateByIdL, hx, if_pos]
      have h1 : (idf (f x) == j) = false := by
        simp [hf x, hxi, Ne.symm hne]
      have h2 : (idf x == j) = false := by simp [hxi, Ne.symm hne]
      simp [findByIdL, List.find?, h1, h2]
    · have hx2 : (idf x == i) = false := by simpa using hx
      simp only [updateByIdL, hx2, Bool.false_eq_true, if_neg,
        not_false_iff]
      by_cases hj : idf x == j
      · simp [findByIdL, List.find?, hj]
      · have hj2 : (idf x == j) = false := by simpa using hj
        simp only [findByIdL, List.find?, hj2]
        exact ih

theorem findByIdL_updateByIdL_self {α : Type} (idf : α → Nat) (f : α → α)
    (hf : ∀ x, idf (f x) = idf x) (l : List α) (i : Nat) :
    findByIdL idf (updateByIdL idf f i l) i = (findByIdL idf l i).map f := by
  induction l with
  | nil => rfl
  | cons x xs ih =>
    by_cases hx : idf x == i
    · have hfx : (idf (f x) == i) = true := by
        rw [hf x]; exact hx
      simp [updateByIdL, hx, findByIdL, List.find?, hfx]
    · have hx2 : (idf x == i) = false := by simpa using hx
      simp only [updateByIdL, hx2, Bool.false_eq_true, if_neg,
        not_false_iff]
      simp only [findByIdL, List.find?, hx2]
      exact ih

theorem findById_updateBookById_of_ne (db : DB) (f : Book → Book)
    (hf : ∀ b, (f b).id = b.id) (i j : Nat) (hne : j ≠ i) :
    Book.findById (db.updateBookById i f) j = Book.findById db j :=
  findByIdL_updateByIdL_of_ne Book.id f hf db.books i j hne

theorem findById_updateBookById_self (db : DB) (f : Book → Book)
    (hf : ∀ b, (f b).id = b.id) (i : Nat) :
    Book.findById (db.updateBookById i f) i = (Book.findById db i).map f :=
  findByIdL_updateByIdL_self Book.id f hf db.books i

/-- bookEffects for a target status that is neither accepted nor completed is
the identity. -/
theorem bookEffects_other (db : DB) (request : Request) (status : String)
    (h1 : (status == "accepted") = false)
    (h2 : (status == "completed") = false) :
    bookEffects db request status = db := by
  unfold bookEffects
  rw [h1, h2]
  simp only [Bool.false_eq_true, if_false]

/-! Characterization of updateRequest: the missing-request case, the
successful path, the invalid-transition path, and the overall shape. -/

theorem updateRequest_404 (db : DB) (rid uid now : Nat) (s : String)
    (md : Option String) (hfind : Request.findById db rid = none) :
    updateRequest db rid uid s md now =
      (Outcome.error 404 "Request not found", db) := by
  unfold updateRequest
  rw [hfind]

theorem updateRequest_success_of (db : DB) (rid uid now : Nat) (s : String)
    (md : Option String) (request : Request) (ns : ReqStatus)
    (hfind : Request.findById db rid = some request)
    (hauth : authPasses request uid s = true)
    (hcont : (validTransitions request.status).contains s = true)
    (hns : strToStatus s = some ns) :
    updateRequest db rid uid s md now =
      (Outcome.success 200 (applyStatusUpdate ns s now request),
       bookEffects (db.updateRequestById rid (applyStatusUpdate ns s now))
         request s) := by
  simp only [authPasses, Bool.and_eq_true, Bool.not_eq_true'] at hauth
  obtain ⟨⟨h1, h2⟩, h3⟩ := hauth
  have hmem : s ∈ validTransitions request.status := by simpa using hcont
  unfold updateRequest
  rw [hfind]
  simp [h1, h2, h3, hmem, hns]

theorem updateRequest_invalid_of (db : DB) (rid uid now : Nat) (s : String)
    (md : Option String) (request : Request)
    (hfind : Request.findById db rid = some request)
    (hauth : authPasses request uid s = true)
    (hmiss : (validTransitions request.status).contains s = false) :
    updateRequest db rid uid s md now =
      (Outcome.error 400 (invalidTransitionMsg request.status s), db) := by
  simp only [authPasses, Bool.and_eq_true, Bool.not_eq_true'] at hauth
  obtain ⟨⟨h1, h2⟩, h3⟩ := hauth
  have hmem : s ∉ validTransitions request.status := by simpa using hmiss
  unfold updateRequest
  rw [hfind]
  simp [h1, h2, h3, hmem]

theorem updateRequest_shape (db : DB) (rid uid now : Nat) (s : String)
    (md : Option String) :
    ((updateRequest db rid uid s md now).2 = db ∧
     ∃ c m, (updateRequest db rid uid s md now).1 = Outcome.error c m) ∨
    (∃ request ns, Request.findById db rid = some request ∧
      strToStatus s = some ns ∧
      (validTransitions request.status).contains s = true ∧
      updateRequest db rid uid s md now =
        (Outcome.success 200 (applyStatusUpdate ns s now request),
         bookEffects
           (db.updateRequestById rid (applyStatusUpdate ns s now))
           request s)) := by
  unfold updateRequest
  split
  next => exact Or.inl ⟨rfl, 404, _, rfl⟩
  next request heq =>
    split
    next => exact Or.inl ⟨rfl, 403, _, rfl⟩
    next =>
      split
      next => exact Or.inl ⟨rfl, 403, _, rfl⟩
      next =>
        split
        next => exact Or.inl ⟨rfl, 403, _, rfl⟩
        next =>
          split
          next => exact Or.inl ⟨rfl, 400, _, rfl⟩
          next hcont =>
            split
            next => exact Or.inl ⟨rfl, 400, _, rfl⟩
            next ns hns =>
              refine Or.inr ⟨request, ns, heq, hns, ?_, rfl⟩
              simpa using hcont

/-- Claim C7: a transition call targeting rejected or cancelled leaves every
book record — every field, owner and availability status included —
unchanged: the book collection after the call equals the one before.  (The
statement covers the successful case of the claim and, more strongly, the
error cases as well.) -/
theorem c7_reject_cancel_book_frame :
    ∀ (db : DB) (rid uid now : Nat) (md : Option String) (s : String),
    s = "rejected" ∨ s = "cancelled" →
    ((updateRequest db rid uid s md now).2).books = db.books := by
  intro db rid uid now md s hs
  rcases updateRequest_shape db rid uid now s md with
    ⟨h2, _⟩ | ⟨request, ns, _, _, _, heq⟩
  · rw [h2]
  · have ha : (s == "accepted") = false := by
      rcases hs with h | h <;> subst h <;> rfl
    have hc : (s == "completed") = false := by
      rcases hs with h | h <;> subst h <;> rfl
    rw [heq]
    show (bookEffects _ request s).books = db.books
    rw [bookEffects_other _ request s ha hc]
    rfl

theorem c7_reject_cancel_book_frame_witness :
    ((updateRequest wdbPending 1 20 "rejected" none 0).2).books =
      wdbPending.books :=
  c7_reject_cancel_book_frame wdbPending 1 20 0 none "rejected" (Or.inl rfl)

/-- Claim C8: a transition call is atomic — when it returns an error the
store is exactly the pre-state (neither the request nor any book was
mutated), and when it succeeds both the request-status update and the book
mutations of that transition are committed in the post-state. -/
theorem c8_transition_atomicity :
    ∀ (db : DB) (rid uid now : Nat) (s : String) (md : Option String),
    (∀ c m, (updateRequest db rid uid s md now).1 = Outcome.error c m →
      (updateRequest db rid uid s md now).2 = db) ∧
    (∀ c ur, (updateRequest db rid uid s md now).1 = Outcome.success c ur →
      ∃ request ns, Request.findById db rid = some request ∧
        strToStatus s = some ns ∧
        ur = applyStatusUpdate ns s now request ∧
        (updateRequest db rid uid s md now).2 =
          bookEffects
            (db.updateRequestById rid (applyStatusUpdate ns s now))
            request s) := by
  intro db rid uid now s md
  rcases updateRequest_shape db rid uid now s md with
    ⟨h2, c0, m0, h1⟩ | ⟨request, ns, hfind, hns, hcont, heq⟩
  · constructor
    · intro c m _
      exact h2
    · intro c ur hsucc
      rw [h1] at hsucc
      exact Outcome.noConfusion hsucc
  · constructor
    · intro c m hm
      rw [heq] at hm
      exact Outcome.noConfusion hm
    · intro c ur hsucc
      rw [heq] at hsucc
      have h2 : Outcome.success 200 (applyStatusUpdate ns s now request) =
          Outcome.success c ur := hsucc
      injection h2 with hc hur
      exact ⟨request, ns, hfind, hns, hur.symm, by rw [heq]⟩

theorem c8_transition_atomicity_witness :
    (updateRequest wdbPending 1 10 "accepted" none 0).2 = wdbPending ∧
    ∃ request ns, Request.findById wdbPending 1 = some request ∧
      strToStatus "accepted" = some ns ∧
      wReqAccepted = applyStatusUpdate ns "accepted" 0 request ∧
      (updateRequest wdbPending 1 20 "accepted" none 0).2 =
        bookEffects
          (wdbPending.updateRequestById 1 (applyStatusUpdate ns "accepted" 0))
          request "accepted" :=
  ⟨(c8_transition_atomicity wdbPending 1 10 0 "accepted" none).1 403
      "Only book owner can accept or reject requests" rfl,
   (c8_transition_atomicity wdbPending 1 20 0 "accepted" none).2 200
      wReqAccepted rfl⟩

/-- Claim C9: getRequestById never mutates state, returns the request
exactly for its requester or owner, replies 403 Forbidden to any other
caller, and 404 NotFound for a missing id. -/
theorem c9_get_request_access :
    ∀ (db : DB) (rid uid : Nat),
    (getRequestById db rid uid).2 = db ∧
    (Request.findById db rid = none →
      (getRequestById db rid uid).1 = Outcome.error 404 "Request not found") ∧
    (∀ request, Request.findById db rid = some request →
      ((request.requester = uid ∨ request.owner = uid) →
        (getRequestById db rid uid).1 = Outcome.success 200 request) ∧
      (request.requester ≠ uid → request.owner ≠ uid →
        (getRequestById db rid uid).1 =
          Outcome.error 403 "Not authorized to view this request")) := by
  intro db rid uid
  refine ⟨?_, ?_, ?_⟩
  · unfold getRequestById
    split
    next => rfl
    next request heq => split <;> rfl
  · intro h
    unfold getRequestById
    rw [h]
  · intro request heq
    constructor
    · intro hor
      have hcond : (!(request.requester == uid) && !(request.owner == uid)) =
          false := by
        rcases hor with h | h <;> simp [h]
      unfold getRequestById
      rw [heq]
      simp [hcond]
    · intro h1 h2
      have hcond : (!(request.requester == uid) && !(request.owner == uid)) =
          true := by
        simp [h1, h2]
      unfold getRequestById
      rw [heq]
      simp [hcond]

theorem c9_get_request_access_witness :
    (getRequestById wdbPending 1 10).1 = Outcome.success 200 wReqPending ∧
    (getRequestById wdbPending 1 99).1 =
      Outcome.error 403 "Not authorized to view this request" ∧
    (getRequestById wdbPending 7 10).1 =
      Outcome.error 404 "Request not found" :=
  ⟨(((c9_get_request_access wdbPending 1 10).2.2 wReqPending rfl).1)
      (Or.inl rfl),
   (((c9_get_request_access wdbPending 1 99).2.2 wReqPending rfl).2)
      (by decide) (by decide),
   ((c9_get_request_access wdbPending 7 10).2.1) rfl⟩

/-- Claim C10: deleteBook by the owner fails with an invalid-state error and
changes nothing while a pending request references the book; otherwise it
keeps the record and soft-deletes it, clearing isActive and marking it Not
Available. -/
theorem c10_delete_book_soft_delete :
    ∀ (db : DB) (bookId uid : Nat) (book : Book),
    Book.findById db bookId = some book →
    book.owner = uid →
    ((∃ r ∈ db.requests, r.book = bookId ∧ r.status = ReqStatus.pending) →
      deleteBook db bookId uid =
        (Outcome.error 400 "Cannot delete book with pending requests", db)) ∧
    ((∀ r ∈ db.requests, r.book = bookId → r.status ≠ ReqStatus.pending) →
      deleteBook db bookId uid =
        (Outcome.success 200 (),
         db.updateBookById bookId
           (fun b => { b with isActive := false,
                              status := BookStatus.notAvailable })) ∧
      Book.findById (deleteBook db bookId uid).2 bookId =
        some { book with isActive := false,
                         status := BookStatus.notAvailable }) := by
  intro db bookId uid book hfind howner
  have howB : (book.owner == uid) = true := by simp [howner]
  constructor
  · rintro ⟨r, hr, hb, hs⟩
    have hmem : r ∈ db.requests.filter (fun r =>
        r.book == bookId && r.status == ReqStatus.pending) :=
      List.mem_filter.mpr ⟨hr, by simp [hb, hs]⟩
    have hpos : 0 < (db.requests.filter (fun r =>
        r.book == bookId && r.status == ReqStatus.pending)).length :=
      List.length_pos.mpr (List.ne_nil_of_mem hmem)
    unfold deleteBook
    rw [hfind]
    simp [howB, hpos]
  · intro hno
    have hempty : db.requests.filter (fun r =>
        r.book == bookId && r.status == ReqStatus.pending) = [] := by
      apply List.filter_eq_nil_iff.mpr
      intro r hr
      simp only [Bool.and_eq_true, beq_iff_eq, not_and]
      intro hb
      exact hno r hr hb
    have heq : deleteBook db bookId uid =
        (Outcome.success 200 (),
         db.updateBookById bookId
           (fun b => { b with isActive := false,
                              status := BookStatus.notAvailable })) := by
      unfold deleteBook
      rw [hfind]
      simp [howB, hempty]
    refine ⟨heq, ?_⟩
    rw [heq]
    rw [findById_updateBookById_self db
      (fun b => { b with isActive := false,
                         status := BookStatus.notAvailable })
      (fun b => rfl) bookId, hfind]
    rfl

theorem c10_delete_book_soft_delete_witness :
    deleteBook wdbPending 1 20 =
      (Outcome.error 400 "Cannot delete book with pending requests",
       wdbPending) ∧
    Book.findById (deleteBook wdbBooks 1 20).2 1 =
      some { wBook with isActive := false,
                        status := BookStatus.notAvailable } :=
  ⟨(c10_delete_book_soft_delete wdbPending 1 20 wBook rfl rfl).1
      ⟨wReqPending, by decide, rfl, rfl⟩,
   ((c10_delete_book_soft_delete wdbBooks 1 20 wBook rfl rfl).2
      (by intro r hr; cases hr)).2⟩

/-- The contains test of updateRequest agrees with the five-edge table the
spec writes out. -/
theorem contains_eq_isTableEdgeB (cur : ReqStatus) (s : String) :
    (validTransitions cur).contains s = isTableEdgeB cur s := by
  cases cur <;>
    simp only [validTransitions, isTableEdgeB, List.contains, List.elem] <;>
    cases hsa : s == "accepted" <;> cases hsr : s == "rejected" <;>
    cases hsc : s == "cancelled" <;> cases hsm : s == "completed" <;>
    rfl

/-- Claim C1: a transition call succeeds only along the five table edges
pending to accepted / rejected / cancelled and accepted to completed /
cancelled; for a (currentStatus, targetStatus) pair off the table, a call
that passes the authorization gate fails with the invalid-transition error —
whose message spells out both the current and the requested status — and
leaves the store untouched. -/
theorem c1_status_transition_table :
    ∀ (db : DB) (rid uid now : Nat) (s : String) (md : Option String),
    (∀ c ur, (updateRequest db rid uid s md now).1 = Outcome.success c ur →
      ∃ request, Request.findById db rid = some request ∧
        isTableEdgeB request.status s = true) ∧
    (∀ request, Request.findById db rid = some request →
      authPasses request uid s = true →
      isTableEdgeB request.status s = false →
      updateRequest db rid uid s md now =
        (Outcome.error 400 (invalidTransitionMsg request.status s), db)) := by
  intro db rid uid now s md
  constructor
  · intro c ur hsucc
    rcases updateRequest_shape db rid uid now s md with
      ⟨_, c0, m0, h1⟩ | ⟨request, ns, hfind, hns, hcont, heq⟩
    · rw [h1] at hsucc
      exact Outcome.noConfusion hsucc
    · exact ⟨request, hfind, by rw [← contains_eq_isTableEdgeB]; exact hcont⟩
  · intro request hfind hauth hmiss
    exact updateRequest_invalid_of db rid uid now s md request hfind hauth
      (by rw [contains_eq_isTableEdgeB]; exact hmiss)

theorem c1_status_transition_table_witness :
    (∃ request, Request.findById wdbPending 1 = some request ∧
      isTableEdgeB request.status "accepted" = true) ∧
    updateRequest wdbPending 1 20 "completed" none 0 =
      (Outcome.error 400 (invalidTransitionMsg ReqStatus.pending "completed"),
       wdbPending) :=
  ⟨(c1_status_transition_table wdbPending 1 20 0 "accepted" none).1 200
      wReqAccepted rfl,
   (c1_status_transition_table wdbPending 1 20 0 "completed" none).2
      wReqPending rfl (by decide) (by decide)⟩

/-- On completion, the target book lookup yields a document owned by the
requester and Not Available (given the offered book, if any, is a different
document). -/
theorem bookEffects_completed_target (d : DB) (request : Request)
    (hob : ∀ ob, request.offeredBooks = some ob → ob ≠ request.book)
    (b : Book)
    (hb : Book.findById (bookEffects d request "completed") request.book =
      some b) :
    b.owner = request.requester ∧ b.status = BookStatus.notAvailable := by
  unfold bookEffects at hb
  cases hty : request.type with
  | free =>
    rw [hty] at hb
    have hb2 : Book.findById
        (d.updateBookById request.book
          (fun bk => { bk with status := BookStatus.notAvailable,
                               owner := request.requester }))
        request.book = some b := hb
    rw [findById_updateBookById_self d
      (fun bk => { bk with status := BookStatus.notAvailable,
                           owner := request.requester })
      (fun bk => rfl) request.book] at hb2
    cases h0 : Book.findById d request.book with
    | none => rw [h0] at hb2; cases hb2
    | some b0 =>
      rw [h0] at hb2
      simp only [Option.map_some'] at hb2
      injection hb2 with hb3
      rw [← hb3]
      exact ⟨rfl, rfl⟩
  | exchange =>
    rw [hty] at hb
    cases hbo : request.offeredBooks with
    | none =>
      rw [hbo] at hb
      have hb2 : Book.findById
          (d.updateBookById request.book
            (fun bk => { bk with status := BookStatus.notAvailable,
                                 owner := request.requester }))
          request.book = some b := hb
      rw [findById_updateBookById_self d
        (fun bk => { bk with status := BookStatus.notAvailable,
                             owner := request.requester })
        (fun bk => rfl) request.book] at hb2
      cases h0 : Book.findById d request.book with
      | none => rw [h0] at hb2; cases hb2
      | some b0 =>
        rw [h0] at hb2
        simp only [Option.map_some'] at hb2
        injection hb2 with hb3
        rw [← hb3]
        exact ⟨rfl, rfl⟩
    | some ob =>
      rw [hbo] at hb
      have hne : request.book ≠ ob := (hob ob hbo).symm
      have hb2 : Book.findById
          ((d.updateBookById request.book
            (fun bk => { bk with status := BookStatus.notAvailable,
                                 owner := request.requester })).updateBookById
            ob
            (fun bk => { bk with status := BookStatus.notAvailable,
                                 owner := request.owner }))
          request.book = some b := hb
      rw [findById_updateBookById_of_ne _
        (fun bk => { bk with status := BookStatus.notAvailable,
                             owner := request.owner })
        (fun bk => rfl) ob request.book hne] at hb2
      rw [findById_updateBookById_self d
        (fun bk => { bk with status := BookStatus.notAvailable,
                             owner := request.requester })
        (fun bk => rfl) request.book] at hb2
      cases h0 : Book.findById d request.book with
      | none => rw [h0] at hb2; cases hb2
      | some b0 =>
        rw [h0] at hb2
        simp only [Option.map_some'] at hb2
        injection hb2 with hb3
        rw [← hb3]
        exact ⟨rfl, rfl⟩

/-- On completion of an exchange, the offered book lookup yields a document
owned by the original owner and Not Available. -/
theorem bookEffects_completed_offered (d : DB) (request : Request) (ob : Nat)
    (hbo : request.offeredBooks = some ob)
    (hty : request.type = ReqType.exchange) (b : Book)
    (hb : Book.findById (bookEffects d request "completed") ob = some b) :
    b.owner = request.owner ∧ b.status = BookStatus.notAvailable := by
  unfold bookEffects at hb
  rw [hty, hbo] at hb
  have hb2 : Book.findById
      ((d.updateBookById request.book
        (fun bk => { bk with status := BookStatus.notAvailable,
                             owner := request.requester })).updateBookById
        ob
        (fun bk => { bk with status := BookStatus.notAvailable,
                             owner := request.owner }))
      ob = some b := hb
  rw [findById_updateBookById_self _
    (fun bk => { bk with status := BookStatus.notAvailable,
                         owner := request.owner })
    (fun bk => rfl) ob] at hb2
  cases h0 : Book.findById
      (d.updateBookById request.book
        (fun bk => { bk with status := BookStatus.notAvailable,
                             owner := request.requester })) ob with
  | none => rw [h0] at hb2; cases hb2
  | some b0 =>
    rw [h0] at hb2
    simp only [Option.map_some'] at hb2
    injection hb2 with hb3
    rw [← hb3]
    exact ⟨rfl, rfl⟩

/-- Claim C2: completing an accepted request succeeds, stamps completedAt,
hands the target book to the requester, and for an exchange hands the
offered book to the original owner; both books are left Not Available. -/
theorem c2_completion_effects :
    ∀ (db : DB) (rid uid now : Nat) (md : Option String) (request : Request),
    Request.findById db rid = some request →
    request.status = ReqStatus.accepted →
    (uid = request.requester ∨ uid = request.owner) →
    (∀ ob, request.offeredBooks = some ob → ob ≠ request.book) →
    ∃ ur db2,
      updateRequest db rid uid "completed" md now =
        (Outcome.success 200 ur, db2) ∧
      ur.status = ReqStatus.completed ∧
      ur.completedAt = some now ∧
      (∀ b, Book.findById db2 request.book = some b →
        b.owner = request.requester ∧ b.status = BookStatus.notAvailable) ∧
      (∀ ob, request.offeredBooks = some ob → request.type = ReqType.exchange →
        ∀ b, Book.findById db2 ob = some b →
          b.owner = request.owner ∧ b.status = BookStatus.notAvailable) := by
  intro db rid uid now md request hfind hst hauth hob
  have hauthB : authPasses request uid "completed" = true := by
    rcases hauth with h | h <;> subst h <;> simp [authPasses]
  have hcont : (validTransitions request.status).contains "completed" =
      true := by
    rw [hst]
    rfl
  have heq := updateRequest_success_of db rid uid now "completed" md request
    ReqStatus.completed hfind hauthB hcont rfl
  refine ⟨_, _, heq, rfl, rfl, ?_, ?_⟩
  · intro b hb
    exact bookEffects_completed_target _ request hob b hb
  · intro ob hbo hty b hb
    exact bookEffects_completed_offered _ request ob hbo hty b hb

theorem c2_completion_effects_witness :
    ∃ ur db2,
      updateRequest wdbAccepted 1 10 "completed" none 77 =
        (Outcome.success 200 ur, db2) ∧
      ur.status = ReqStatus.completed ∧
      ur.completedAt = some 77 ∧
      (∀ b, Book.findById db2 wReqAccepted.book = some b →
        b.owner = wReqAccepted.requester ∧
        b.status = BookStatus.notAvailable) ∧
      (∀ ob, wReqAccepted.offeredBooks = some ob →
        wReqAccepted.type = ReqType.exchange →
        ∀ b, Book.findById db2 ob = some b →
          b.owner = wReqAccepted.owner ∧
          b.status = BookStatus.notAvailable) :=
  c2_completion_effects wdbAccepted 1 10 77 none wReqAccepted rfl rfl
    (Or.inl rfl) (by intro ob h; cases h)

/-- Claim C3 (evidence of the divergence): through the route, a PUT of
status cancelled by the requester of a pending request — and likewise a PUT
of status rejected by the owner — is answered 400 by the body validation
with the store untouched, because updateRequestSchema only admits accepted
and completed; the controller itself, reached directly, performs both
transitions and answers 200, which is what the claim and the spec
describe. -/
theorem c3_cancel_blocked_by_validation :
    putRequestRoute wdbPending 1 10 "cancelled" 0 =
      (Outcome.error 400 "status must be one of [accepted, completed]",
       wdbPending) ∧
    putRequestRoute wdbPending 1 20 "rejected" 0 =
      (Outcome.error 400 "status must be one of [accepted, completed]",
       wdbPending) ∧
    updateRequest wdbPending 1 10 "cancelled" none 0 =
      (Outcome.success 200 wReqCancelled, wdbCancelled) ∧
    updateRequest wdbPending 1 20 "rejected" none 0 =
      (Outcome.success 200 { wReqPending with status := ReqStatus.rejected },
       { books := [wBook],
         requests := [{ wReqPending with status := ReqStatus.rejected }],
         users := [] }) :=
  ⟨rfl, rfl, rfl, rfl⟩

/-- Claim C6: a second rating from the same side of a completed request
fails with the already-rated error and changes nothing; a successful rating
records the value and review on the rater's side and folds the value into
the counterparty through updateRating, whose result realizes
newAverage = (oldAverage * oldCount + rating) / (oldCount + 1) with the
count incremented; a first rating of an unrated counterparty therefore
yields average r and count 1. -/
theorem c6_rating :
    ∀ (db : DB) (rid uid : Nat) (q : Rat) (rv : Option String)
      (request : Request),
    Request.findById db rid = some request →
    request.status = ReqStatus.completed →
    (request.requester = uid →
      truthyNum request.rating.requesterRating = true →
      rateRequest db rid uid q rv =
        (Outcome.error 400 "You have already rated this request", db)) ∧
    (request.owner = uid → request.requester ≠ uid →
      truthyNum request.rating.ownerRating = true →
      rateRequest db rid uid q rv =
        (Outcome.error 400 "You have already rated this request", db)) ∧
    (request.requester = uid →
      truthyNum request.rating.requesterRating = false →
      ∀ owner, User.findById db request.owner = some owner →
      rateRequest db rid uid q rv =
        (Outcome.success 200
          { request.rating with requesterRating := some q,
                                requesterReview := rv },
         (db.updateUserById request.owner
            (fun u => u.updateRating q)).updateRequestById rid
           (fun r => { r with rating :=
             { request.rating with requesterRating := some q,
                                   requesterReview := rv } }))) ∧
    (request.owner = uid → request.requester ≠ uid →
      truthyNum request.rating.ownerRating = false →
      ∀ requester0, User.findById db request.requester = some requester0 →
      rateRequest db rid uid q rv =
        (Outcome.success 200
          { request.rating with ownerRating := some q,
                                ownerReview := rv },
         (db.updateUserById request.requester
            (fun u => u.updateRating q)).updateRequestById rid
           (fun r => { r with rating :=
             { request.rating with ownerRating := some q,
                                   ownerReview := rv } }))) ∧
    (∀ u : User, (u.updateRating q).ratingCount = u.ratingCount + 1 ∧
      (u.updateRating q).ratingAverage =
        (u.ratingAverage * (u.ratingCount : Rat) + q) /
          ((u.ratingCount : Rat) + 1)) ∧
    (∀ u : User, u.ratingCount = 0 →
      (u.updateRating q).ratingAverage = q ∧
      (u.updateRating q).ratingCount = 1) := by
  intro db rid uid q rv request hfind hst
  refine ⟨?_, ?_, ?_, ?_, ?_, ?_⟩
  · intro hreq htr
    subst hreq
    unfold rateRequest
    rw [hfind]
    simp [hst, htr]
  · intro hown hne htr
    subst hown
    have hneB : (request.requester == request.owner) = false := by
      simpa using hne
    unfold rateRequest
    rw [hfind]
    simp [hst, htr, hneB]
  · intro hreq htr owner howner
    subst hreq
    unfold rateRequest
    rw [hfind]
    simp only [hst, beq_self_eq_true, Bool.not_true, Bool.false_and,
      Bool.and_false, Bool.false_eq_true, if_false, if_true, htr]
    rw [howner]
  · intro hown hne htr requester0 hreqf
    subst hown
    have hneB : (request.requester == request.owner) = false := by
      simpa using hne
    unfold rateRequest
    rw [hfind]
    simp only [hst, beq_self_eq_true, hneB, Bool.not_true, Bool.not_false,
      Bool.true_and, Bool.and_false, Bool.false_and, Bool.and_true,
      Bool.false_eq_true, if_false, if_true, htr]
    rw [hreqf]
  · intro u
    exact ⟨rfl, rfl⟩
  · intro u hc
    unfold User.updateRating
    simp [hc]

theorem c6_rating_witness :
    rateRequest wdbRated 1 10 5 none =
      (Outcome.error 400 "You have already rated this request", wdbRated) ∧
    rateRequest wdbCompleted 1 10 5 none =
      (Outcome.success 200
        { wReqCompleted.rating with requesterRating := some 5,
                                    requesterReview := none },
       (wdbCompleted.updateUserById wReqCompleted.owner
          (fun u => u.updateRating 5)).updateRequestById 1
         (fun r => { r with rating :=
           { wReqCompleted.rating with requesterRating := some 5,
                                       requesterReview := none } })) ∧
    rateRequest wdbCompleted 1 20 4 none =
      (Outcome.success 200
        { wReqCompleted.rating with ownerRating := some 4,
                                    ownerReview := none },
       (wdbCompleted.updateUserById wReqCompleted.requester
          (fun u => u.updateRating 4)).updateRequestById 1
         (fun r => { r with rating :=
           { wReqCompleted.rating with ownerRating := some 4,
                                       ownerReview := none } })) ∧
    (wOwnerUser.updateRating 5).ratingAverage = 5 ∧
    (wOwnerUser.updateRating 5).ratingCount = 1 := by
  refine ⟨?_, ?_, ?_, ?_, ?_⟩
  · exact (c6_rating wdbRated 1 10 5 none
      { wReqCompleted with
        rating := { ReqRating.empty with requesterRating := some 4 } }
      rfl rfl).1 rfl (by decide)
  · exact (c6_rating wdbCompleted 1 10 5 none wReqCompleted rfl rfl).2.2.1
      rfl rfl wOwnerUser rfl
  · exact (c6_rating wdbCompleted 1 20 4 none wReqCompleted rfl rfl).2.2.2.1
      rfl (by decide) rfl wRequesterUser rfl
  · exact ((c6_rating wdbCompleted 1 10 5 none wReqCompleted rfl
      rfl).2.2.2.2.2 wOwnerUser rfl).1
  · exact ((c6_rating wdbCompleted 1 10 5 none wReqCompleted rfl
      rfl).2.2.2.2.2 wOwnerUser rfl).2

/-- Claim C4 (counterexample to the claim as stated): with the target book
present, active and Available, the requester not its owner, no duplicate
pending request, and an offered book id supplied that matches no stored
book, every failure condition the claim lists is absent from its not-found
clause only through the offered book — yet createRequest answers 400
"Offered book is not valid or not available", not a not-found report, so
the absent offered book is not reported as "not found" as the claim
requires. -/
theorem c4_claim_counterexample :
    createRequest wdbBooks 10 1 ReqType.exchange (some 99) 5 =
      (Outcome.error 400 "Offered book is not valid or not available",
       wdbBooks) ∧
    (Outcome.error 400 "Offered book is not valid or not available" ≠
      (Outcome.error 404 "Book not found" : Outcome Request)) ∧
    Book.findById wdbBooks 99 = none :=
  ⟨rfl, by decide, rfl⟩

/-- Claim C4 (amended): createRequest reports 404 "Book not found" exactly
when the target book is absent or inactive; it reports some 400
invalid-state error exactly when (the target being present and active) the
target is not Available, the requester owns it, a duplicate pending request
exists, the kind is exchange with no offered book supplied, or the kind is
exchange and the offered book lookup fails (absent, inactive, not owned by
the requester, or not Available — answered 400 "Offered book is not valid
or not available"); when no failure condition holds it appends a request in
pending status whose owner is denormalized from the book; every error
leaves the store unchanged. -/
theorem c4_create_characterization :
    ∀ (db : DB) (uid bookId fid : Nat) (ty : ReqType) (ob : Option Nat),
    ((createRequest db uid bookId ty ob fid).1 =
        Outcome.error 404 "Book not found" ↔
      targetMissingB db bookId = true) ∧
    ((∃ m, (createRequest db uid bookId ty ob fid).1 =
        Outcome.error 400 m) ↔
      (targetMissingB db bookId = false ∧
        (targetUnavailableB db bookId = true ∨
         ownsTargetB db bookId uid = true ∨
         dupPendingB db bookId uid = true ∨
         exchangeNoOfferB ty ob = true ∨
         exchangeBadOfferB db uid ty ob = true))) ∧
    ((targetMissingB db bookId = false ∧
      targetUnavailableB db bookId = false ∧
      ownsTargetB db bookId uid = false ∧
      dupPendingB db bookId uid = false ∧
      exchangeNoOfferB ty ob = false ∧
      exchangeBadOfferB db uid ty ob = false) →
      ∃ req, createRequest db uid bookId ty ob fid =
          (Outcome.success 201 req,
           { db with requests := db.requests ++ [req] }) ∧
        req.status = ReqStatus.pending ∧ req.requester = uid ∧
        req.book = bookId ∧ req.id = fid ∧
        (Book.findById db bookId).map Book.owner = some req.owner) ∧
    ((∃ c m, (createRequest db uid bookId ty ob fid).1 =
        Outcome.error c m) →
      (createRequest db uid bookId ty ob fid).2 = db) := by
  intro db uid bookId fid ty ob
  cases hb : Book.findById db bookId with
  | none =>
    have hres : createRequest db uid bookId ty ob fid =
        (Outcome.error 404 "Book not found", db) := by
      unfold createRequest
      rw [hb]
    have e1 : targetMissingB db bookId = true := by
      unfold targetMissingB
      rw [hb]
    rw [hres]
    simp [e1]
  | some book =>
    by_cases hact : book.isActive = true
    case neg =>
      have hactF : book.isActive = false := by
        cases h : book.isActive
        · rfl
        · exact absurd h hact
      have hres : createRequest db uid bookId ty ob fid =
          (Outcome.error 404 "Book not found", db) := by
        unfold createRequest
        rw [hb]
        simp [hactF]
      have e1 : targetMissingB db bookId = true := by
        unfold targetMissingB
        rw [hb]
        simp [hactF]
      rw [hres]
      simp [e1]
    case pos =>
      have e1 : targetMissingB db bookId = false := by
        unfold targetMissingB
        rw [hb]
        simp [hact]
      by_cases hstat : (book.status == BookStatus.available) = true
      case neg =>
        have hstatF : (book.status == BookStatus.available) = false := by
          simpa using hstat
        have hres : createRequest db uid bookId ty ob fid =
            (Outcome.error 400 "Book is not available for requests", db) := by
          unfold createRequest
          rw [hb]
          simp [hact, hstatF]
        have e2 : targetUnavailableB db bookId = true := by
          unfold targetUnavailableB
          rw [hb]
          simp [hstatF]
        rw [hres]
        simp [e1, e2]
      case pos =>
        have e2 : targetUnavailableB db bookId = false := by
          unfold targetUnavailableB
          rw [hb]
          simp [hstat]
        by_cases hown : (book.owner == uid) = true
        case pos =>
          have hres : createRequest db uid bookId ty ob fid =
              (Outcome.error 400 "You cannot request your own book", db) := by
            unfold createRequest
            rw [hb]
            simp [hact, hstat, hown]
          have e3 : ownsTargetB db bookId uid = true := by
            unfold ownsTargetB
            rw [hb]
            exact hown
          rw [hres]
          simp [e1, e3]
        case neg =>
          have hownF : (book.owner == uid) = false := by simpa using hown
          have e3 : ownsTargetB db bookId uid = false := by
            unfold ownsTargetB
            rw [hb]
            exact hownF
          by_cases hdup : dupPendingB db bookId uid = true
          case pos =>
            have hres : createRequest db uid bookId ty ob fid =
                (Outcome.error 400
                  "You already have a pending request for this book", db) := by
              unfold createRequest
              rw [hb]
              have hdup2 : db.requests.any (fun r =>
                  r.requester == uid && r.book == bookId &&
                  r.status == ReqStatus.pending) = true := hdup
              simp [hact, hstat, hownF, hdup2]
            rw [hres]
            simp [e1, hdup]
          case neg =>
            have hdupF : dupPendingB db bookId uid = false := by
              simpa using hdup
            have hdup2 : db.requests.any (fun r =>
                r.requester == uid && r.book == bookId &&
                r.status == ReqStatus.pending) = false := hdupF
            cases ty with
            | free =>
              have hres : createRequest db uid bookId ReqType.free ob fid =
                  (Outcome.success 201
                    { id := fid, requester := uid, book := bookId,
                      owner := book.owner, type := ReqType.free,
                      offeredBooks := none, status := ReqStatus.pending,
                      completedAt := none,
                      rating := ReqRating.empty },
                   { db with requests := db.requests ++
                      [{ id := fid, requester := uid, book := bookId,
                         owner := book.owner, type := ReqType.free,
                         offeredBooks := none, status := ReqStatus.pending,
                         completedAt := none,
                         rating := ReqRating.empty }] }) := by
                unfold createRequest
                rw [hb]
                simp [hact, hstat, hownF, hdup2]
              have e5 : exchangeNoOfferB ReqType.free ob = false := rfl
              have e6 : exchangeBadOfferB db uid ReqType.free ob = false := by
                unfold exchangeBadOfferB
                cases ob <;> rfl
              refine ⟨?_, ?_, ?_, ?_⟩
              · rw [hres]
                simp [e1]
              · rw [hres]
                simp [e1, e2, e3, hdupF, e5, e6]
              · intro h
                refine ⟨{ id := fid, requester := uid, book := bookId, owner := book.owner, type := ReqType.free, offeredBooks := none, status := ReqStatus.pending, completedAt := none, rating := ReqRating.empty }, hres, rfl, rfl, rfl, rfl, rfl⟩
              · rw [hres]
                rintro ⟨c, m, hcm⟩
                exact absurd hcm (by simp)
            | exchange =>
              cases hob : ob with
              | none =>
                have hres : createRequest db uid bookId ReqType.exchange none
                    fid =
                    (Outcome.error 400
                      "Exchange requests must include an offered book",
                     db) := by
                  unfold createRequest
                  rw [hb]
                  simp [hact, hstat, hownF, hdup2]
                have e5 : exchangeNoOfferB ReqType.exchange (none : Option Nat) =
                    true := rfl
                rw [hres]
                simp [e1, e5]
              | some o =>
                cases hf : db.books.find? (fun b =>
                    b.id == o && b.owner == uid && b.isActive &&
                    b.status == BookStatus.available) with
                | none =>
                  have hres : createRequest db uid bookId ReqType.exchange
                      (some o) fid =
                      (Outcome.error 400
                        "Offered book is not valid or not available",
                       db) := by
                    unfold createRequest
                    rw [hb]
                    simp [hact, hstat, hownF, hdup2, hf]
                  have e6 : exchangeBadOfferB db uid ReqType.exchange
                      (some o) = true := by
                    simp [exchangeBadOfferB, hf]
                  rw [hres]
                  simp [e1, e6]
                | some bk =>
                  have hres : createRequest db uid bookId ReqType.exchange
                      (some o) fid =
                      (Outcome.success 201
                        { id := fid, requester := uid, book := bookId,
                          owner := book.owner, type := ReqType.exchange,
                          offeredBooks := some o,
                          status := ReqStatus.pending,
                          completedAt := none,
                          rating := ReqRating.empty },
                       { db with requests := db.requests ++
                          [{ id := fid, requester := uid, book := bookId,
                             owner := book.owner, type := ReqType.exchange,
                             offeredBooks := some o,
                             status := ReqStatus.pending,
                             completedAt := none,
                             rating := ReqRating.empty }] }) := by
                    unfold createRequest
                    rw [hb]
                    simp [hact, hstat, hownF, hdup2, hf]
                  have e5 : exchangeNoOfferB ReqType.exchange (some o) =
                      false := rfl
                  have e6 : exchangeBadOfferB db uid ReqType.exchange
                      (some o) = false := by
                    simp [exchangeBadOfferB, hf]
                  refine ⟨?_, ?_, ?_, ?_⟩
                  · rw [hres]
                    simp [e1]
                  · rw [hres]
                    simp [e1, e2, e3, hdupF, e5, e6]
                  · intro h
                    refine ⟨{ id := fid, requester := uid, book := bookId, owner := book.owner, type := ReqType.exchange, offeredBooks := some o, status := ReqStatus.pending, completedAt := none, rating := ReqRating.empty }, hres, rfl, rfl, rfl, rfl, rfl⟩
                  · rw [hres]
                    rintro ⟨c, m, hcm⟩
                    exact absurd hcm (by simp)

theorem c4_create_characterization_witness :
    ∃ req, createRequest wdbBooks 10 1 ReqType.free none 5 =
        (Outcome.success 201 req,
         { wdbBooks with requests := wdbBooks.requests ++ [req] }) ∧
      req.status = ReqStatus.pending ∧ req.requester = 10 ∧
      req.book = 1 ∧ req.id = 5 ∧
      (Book.findById wdbBooks 1).map Book.owner = some req.owner :=
  (c4_create_characterization wdbBooks 10 1 5 ReqType.free none).2.2.1
    ⟨rfl, rfl, rfl, rfl, rfl, rfl⟩

/-! Preservation of the accepted-book invariant by each lifecycle
operation. -/

end BookBuddy
